import Mathlib

/-!
Verification of the chat session controller in
`src/frontend/src/components/chat-interface.tsx` ("EconoGraph").

The component keeps three pieces of React state: `messages : Message[]`,
`input : string` and `isLoading : boolean`.  Its operations are
`handleSend` (an async function: a synchronous part up to the first
`await`, then a resolution that appends the simulated reply, or a catch
branch that appends a fixed error message), `setInput` (the raw state
setter, fed by the Textarea's onChange and by `handleSampleQuestion`),
and nothing else that touches state.

We embed the component as explicit state passing: `ChatState` carries the
three state cells plus `pendingCall`, the `input` value captured by the
closure of an in-flight `handleSend` (that captured value is what the
simulated reply interpolates).  `Date.now()` is modelled by a `Nat`
supplied at each event, and `.toString()` by `Nat.repr`.
-/

/-- Model of JavaScript `String.prototype.trim` (used as `input.trim()` at
line 46): drop leading and trailing whitespace characters. -/
def jsTrim (s : String) : String :=
  String.mk (((s.data.dropWhile Char.isWhitespace).reverse.dropWhile Char.isWhitespace).reverse)

/-- Message roles: the `role: 'user' | 'assistant'` union of the `Message`
interface (chat-interface.tsx line 14). -/
inductive Role where
  | user
  | assistant
deriving DecidableEq

/-- The `Message` interface (chat-interface.tsx lines 11-17).  The optional
field `error?: boolean` is absent everywhere except on the catch-branch
message; absent is rendered exactly like `false`, so we model it as a
`Bool` defaulting to `false`.  `timestamp: Date` is modelled as a `Nat`
(milliseconds, the value of `Date.now()` when the message was created). -/
structure Message where
  id : String
  content : String
  role : Role
  timestamp : Nat
  error : Bool := false
deriving DecidableEq

/-- The state of one `ChatInterface` mount: the React state cells
`messages`, `input`, `isLoading`, plus `pendingCall`, the ghost of the
`input` string captured by the in-flight `handleSend` closure (`some text`
exactly while a simulated remote call is outstanding). -/
structure ChatState where
  messages : List Message
  input : String
  isLoading : Bool
  pendingCall : Option String
deriving DecidableEq

/-- The seed greeting (chat-interface.tsx lines 21-26). -/
def greeting : String :=
  "Hello! I'm EconoGraph, your Federal Reserve Economic Data assistant. I can help you understand economic trends, analyze FRED data, and answer questions about monetary policy. What would you like to explore today?"

/-- Initial state of a fresh mount (chat-interface.tsx lines 20-29):
one assistant greeting with id `'1'`, empty input, not loading.  `t0` is
the `new Date()` taken at mount time. -/
def initialState (t0 : Nat) : ChatState :=
  { messages := [{ id := "1", content := greeting, role := Role.assistant, timestamp := t0 }]
    input := ""
    isLoading := false
    pendingCall := none }

/-- Fixed part of the simulated reply before the interpolated `${input}`
(chat-interface.tsx line 76). -/
def demoPre : String := "I received your question: \""

/-- Fixed part of the simulated reply after the interpolated `${input}`
(chat-interface.tsx lines 76-84). -/
def demoPost : String :=
  "\". This is a demo response. In the full version, I would analyze FRED economic data and provide insights about your query using my knowledge of Federal Reserve data, economic indicators, and monetary policy.\n\nHere are some key points I would typically cover:\n• Current economic indicators and trends\n• Historical data context and comparisons\n• Federal Reserve policy implications\n• Data visualization and charts\n\nWould you like me to elaborate on any specific aspect?"

/-- The simulated assistant reply: the template literal of
chat-interface.tsx lines 76-84 with the captured `input` interpolated. -/
def demoResponse (text : String) : String :=
  demoPre ++ text ++ demoPost

/-- The fixed error text of the catch branch (chat-interface.tsx line 93). -/
def errorText : String :=
  "I'm sorry, I encountered an error processing your request. Please try again or check if the backend service is running."

/-- Synchronous part of `handleSend` (chat-interface.tsx lines 45-57), up
to the first `await`: guard `if (!input.trim() || isLoading) return;`,
then append the user message (id `Date.now().toString()`, content the raw
`input`), clear the input, set `isLoading`, and capture `input` for the
in-flight call. -/
def handleSendStart (s : ChatState) (t : Nat) : ChatState :=
  if jsTrim s.input = "" ∨ s.isLoading = true then s
  else
    { messages := s.messages ++
        [{ id := Nat.repr t, content := s.input, role := Role.user, timestamp := t }]
      input := ""
      isLoading := true
      pendingCall := some s.input }

/-- Resumption of `handleSend` after the simulated call resolves
(chat-interface.tsx lines 74-89 and the `finally` at line 101): append the
assistant message (id `(Date.now() + 1).toString()`, content the demo
template over the captured `text`), and clear `isLoading`. -/
def handleSendResolve (s : ChatState) (text : String) (t : Nat) : ChatState :=
  { s with
    messages := s.messages ++
      [{ id := Nat.repr (t + 1), content := demoResponse text, role := Role.assistant,
         timestamp := t }]
    isLoading := false
    pendingCall := none }

/-- Catch branch of `handleSend` (chat-interface.tsx lines 90-99 and the
`finally` at line 101): append the fixed-text assistant error message
(id `(Date.now() + 1).toString()`, `error: true`), and clear `isLoading`. -/
def handleSendCatch (s : ChatState) (t : Nat) : ChatState :=
  { s with
    messages := s.messages ++
      [{ id := Nat.repr (t + 1), content := errorText, role := Role.assistant,
         timestamp := t, error := true }]
    isLoading := false
    pendingCall := none }

/-- The raw `setInput` state setter (chat-interface.tsx line 28): replaces
`input`, touches nothing else, always succeeds when invoked. -/
def setInput (s : ChatState) (text : String) : ChatState :=
  { s with input := text }

/-- `handleSampleQuestion` (chat-interface.tsx lines 112-114): just
`setInput(question)`; does not auto-submit. -/
def handleSampleQuestion (s : ChatState) (q : String) : ChatState :=
  setInput s q

/-- The externally triggerable events of one mount.  `edit` is typing in
the Textarea (onChange, line 193), `sample` a sample-question click
(line 227), `send` the synchronous part of `handleSend` at clock `t`,
`resolve` the resumption of the outstanding call at clock `t`, `fail` its
catch branch at clock `t`. -/
inductive Event where
  | edit (text : String)
  | sample (q : String)
  | send (t : Nat)
  | resolve (t : Nat)
  | fail (t : Nat)
deriving DecidableEq

/-- Whether an event is the catch-branch completion. -/
def Event.isFail : Event → Bool
  | Event.fail _ => true
  | _ => false

/-- One step of the session.  The Textarea and the sample-question buttons
carry `disabled={isLoading}` (chat-interface.tsx lines 197 and 228), so
`edit` and `sample` reach `setInput` only while not loading.  `resolve`
and `fail` fire only when a call is outstanding (`pendingCall = some _`),
and consume it. -/
def step (s : ChatState) : Event → ChatState
  | Event.edit text => if s.isLoading then s else setInput s text
  | Event.sample q => if s.isLoading then s else handleSampleQuestion s q
  | Event.send t => handleSendStart s t
  | Event.resolve t =>
      match s.pendingCall with
      | some text => handleSendResolve s text t
      | none => s
  | Event.fail t =>
      match s.pendingCall with
      | some _ => handleSendCatch s t
      | none => s

/-- Run a mount from creation through a list of events. -/
def run (t0 : Nat) (evs : List Event) : ChatState :=
  evs.foldl step (initialState t0)

/-- Numeric value of a decimal digit character. -/
def chVal (c : Char) : Nat := c.toNat - 48

/-- Value of a list of decimal digit characters, most significant first. -/
def digitsVal (l : List Char) : Nat := l.foldl (fun a c => 10 * a + chVal c) 0

/-- Every id in the list is the seed `'1'` or was minted from a clock
value below `lo` (and at least 2). -/
def IdsBounded (l : List Message) (lo : Nat) : Prop :=
  ∀ m ∈ l, m.id = "1" ∨ ∃ n, 2 ≤ n ∧ n < lo ∧ m.id = Nat.repr n

/-- All ids in the list are pairwise distinct. -/
def DistinctIds (l : List Message) : Prop :=
  l.Pairwise (fun a b => a.id ≠ b.id)

/-- Clock discipline for an event list: every timed event (`send`,
`resolve`, `fail`) happens no earlier than the running bound, and pushes
the bound to its own time plus 2 (so the `time + 1` id minted by a
resolution cannot be reused by the next submission). -/
def timesOK : Nat → List Event → Bool
  | _, [] => true
  | lo, Event.edit _ :: es => timesOK lo es
  | lo, Event.sample _ :: es => timesOK lo es
  | lo, Event.send t :: es => (decide (lo ≤ t)) && timesOK (t + 2) es
  | lo, Event.resolve t :: es => (decide (lo ≤ t)) && timesOK (t + 2) es
  | lo, Event.fail t :: es => (decide (lo ≤ t)) && timesOK (t + 2) es

/-- A concrete state with a non-empty pending input, used to instantiate
theorems: fresh mount at clock 0, then the user typed `What is GDP?`. -/
def typedState : ChatState := setInput (initialState 0) "What is GDP?"

/-- A concrete state with an outstanding call, used to instantiate
theorems: fresh mount at clock 0, the user typed `hi` and pressed send at
clock 5. -/
def loadingState : ChatState := run 0 [Event.edit "hi", Event.send 5]

/-- Every event leaves the previous `messages` list as a prefix of the new
one: each handler either keeps `messages` or appends one element via
`setMessages(prev => [...prev, msg])`. -/
theorem step_messages_extend (s : ChatState) (e : Event) :
    ∃ l, (step s e).messages = s.messages ++ l := by
  cases e with
  | edit text =>
      by_cases h : s.isLoading = true <;>
        simp [step, setInput, h]
  | sample q =>
      by_cases h : s.isLoading = true <;>
        simp [step, handleSampleQuestion, setInput, h]
  | send t =>
      by_cases h : jsTrim s.input = "" ∨ s.isLoading = true
      · exact ⟨[], by simp [step, handleSendStart, h]⟩
      · exact ⟨[{ id := Nat.repr t, content := s.input, role := Role.user, timestamp := t }],
          by simp [step, handleSendStart, h]⟩
  | resolve t =>
      cases hp : s.pendingCall with
      | none => exact ⟨[], by simp [step, hp]⟩
      | some text =>
          exact ⟨[{ id := Nat.repr (t + 1), content := demoResponse text,
                    role := Role.assistant, timestamp := t }],
            by simp [step, hp, handleSendResolve]⟩
  | fail t =>
      cases hp : s.pendingCall with
      | none => exact ⟨[], by simp [step, hp]⟩
      | some text =>
          exact ⟨[{ id := Nat.repr (t + 1), content := errorText,
                    role := Role.assistant, timestamp := t, error := true }],
            by simp [step, hp, handleSendCatch]⟩

/-- Folding any event list over a state with non-empty `messages` keeps
`messages` non-empty. -/
theorem foldl_messages_ne_nil (evs : List Event) :
    ∀ s : ChatState, s.messages ≠ [] → (evs.foldl step s).messages ≠ [] := by
  induction evs with
  | nil => intro s hs; exact hs
  | cons e es ih =>
      intro s hs
      obtain ⟨l, hl⟩ := step_messages_extend s e
      exact ih (step s e) (by simp [hl, hs])

/-- C1: for every string whose trim is non-empty, submitting while idle
appends exactly one user message carrying the raw input, clears the input,
sets the loading flag, and captures the submitted text for the in-flight
call. -/
theorem submit_idle_appends_user (s : ChatState) (t : Nat)
    (hIdle : s.isLoading = false) (hne : jsTrim s.input ≠ "") :
    handleSendStart s t =
      { messages := s.messages ++
          [{ id := Nat.repr t, content := s.input, role := Role.user, timestamp := t,
             error := false }]
        input := ""
        isLoading := true
        pendingCall := some s.input } := by
  have hcond : ¬ (jsTrim s.input = "" ∨ s.isLoading = true) := by
    simp [hne, hIdle]
  simp [handleSendStart, hcond]

/-- Witness for C1 at the concrete state `typedState` and clock 5. -/
theorem submit_idle_appends_user_witness :
    typedState.isLoading = false ∧ jsTrim typedState.input ≠ "" ∧
      handleSendStart typedState 5 =
        { messages := typedState.messages ++
            [{ id := Nat.repr 5, content := typedState.input, role := Role.user,
               timestamp := 5, error := false }]
          input := ""
          isLoading := true
          pendingCall := some typedState.input } :=
  ⟨by decide, by decide, submit_idle_appends_user typedState 5 (by decide) (by decide)⟩

/-- C2: submitting while a call is outstanding is a complete no-op: the
state, `messages` and `input` included, is returned unchanged; nothing is
queued. -/
theorem submit_while_loading_noop (s : ChatState) (t : Nat)
    (h : s.isLoading = true) :
    handleSendStart s t = s := by
  simp [handleSendStart, h]

/-- Witness for C2 at the concrete state `loadingState` and clock 7. -/
theorem submit_while_loading_noop_witness :
    loadingState.isLoading = true ∧ handleSendStart loadingState 7 = loadingState :=
  ⟨by decide, submit_while_loading_noop loadingState 7 (by decide)⟩

/-- C5: when the pending input is empty or all-whitespace, submitting at
any clock and in any state (loading or not) returns the state unchanged:
no message is appended, no flag is set, the input is not cleared. -/
theorem submit_blank_noop (s : ChatState) (t : Nat)
    (h : ∀ c ∈ s.input.data, c.isWhitespace = true) :
    handleSendStart s t = s := by
  have htrim : jsTrim s.input = "" := by
    have hdrop : s.input.data.dropWhile Char.isWhitespace = [] :=
      List.dropWhile_eq_nil_iff.mpr h
    simp [jsTrim, hdrop]
  simp [handleSendStart, htrim]

/-- Witness for C5: a pending input of two spaces is silently rejected. -/
theorem submit_blank_noop_witness :
    (∀ c ∈ (setInput (initialState 0) "  ").input.data, c.isWhitespace = true) ∧
      handleSendStart (setInput (initialState 0) "  ") 5 = setInput (initialState 0) "  " :=
  ⟨by decide, submit_blank_noop (setInput (initialState 0) "  ") 5 (by decide)⟩

/-- C6: `messages` is append-only: every operation of the controller
(edits, sample-question picks, submit, and the resolve/fail completions)
leaves the previous `messages` list as an unchanged prefix of the new one,
so messages are never reordered, deleted or mutated, and appends happen in
the chronological order of the steps. -/
theorem messages_append_only (s : ChatState) (e : Event) :
    s.messages <+: (step s e).messages := by
  obtain ⟨l, hl⟩ := step_messages_extend s e
  exact ⟨l, hl.symm⟩

/-- C7: a fresh session has exactly one message, the assistant greeting,
and is not awaiting a response; and after any event sequence the message
list is never empty. -/
theorem fresh_session_seeded (t0 : Nat) (evs : List Event) :
    (initialState t0).messages.length = 1 ∧
      (∀ m ∈ (initialState t0).messages, m.role = Role.assistant) ∧
      (initialState t0).isLoading = false ∧
      (run t0 evs).messages ≠ [] := by
  refine ⟨rfl, ?_, rfl, ?_⟩
  · intro m hm
    simp only [initialState, List.mem_singleton] at hm
    subst hm
    rfl
  · exact foldl_messages_ne_nil evs (initialState t0) (by simp [initialState])

/-- C3: when a call is outstanding with captured text, its successful
resolution appends exactly one assistant message (`error = false`,
content the demo reply over the captured text) and clears the loading
flag and the outstanding call. -/
theorem resolve_appends_assistant (s : ChatState) (text : String) (t : Nat)
    (h : s.pendingCall = some text) :
    step s (Event.resolve t) =
      { s with
        messages := s.messages ++
          [{ id := Nat.repr (t + 1), content := demoResponse text, role := Role.assistant,
             timestamp := t, error := false }]
        isLoading := false
        pendingCall := none } := by
  simp [step, h, handleSendResolve]

/-- Witness for C3 at the concrete state `loadingState` and clock 2005. -/
theorem resolve_appends_assistant_witness :
    loadingState.pendingCall = some "hi" ∧
      step loadingState (Event.resolve 2005) =
        { loadingState with
          messages := loadingState.messages ++
            [{ id := Nat.repr (2005 + 1), content := demoResponse "hi",
               role := Role.assistant, timestamp := 2005, error := false }]
          isLoading := false
          pendingCall := none } :=
  ⟨by decide, resolve_appends_assistant loadingState "hi" 2005 (by decide)⟩

/-- C4: when a call is outstanding, its failure appends exactly one
assistant message with `error = true` and the fixed, submission-independent
error text, and clears the loading flag; moreover the session stays usable:
typing any text with non-empty trim and submitting afterwards appends a
further message (length grows to the prior length plus 2). -/
theorem fail_appends_error (s : ChatState) (text : String) (t : Nat) (u : String) (t' : Nat)
    (h : s.pendingCall = some text) (hu : jsTrim u ≠ "") :
    step s (Event.fail t) =
      { s with
        messages := s.messages ++
          [{ id := Nat.repr (t + 1), content := errorText, role := Role.assistant,
             timestamp := t, error := true }]
        isLoading := false
        pendingCall := none } ∧
    (handleSendStart (setInput (step s (Event.fail t)) u) t').messages.length
      = s.messages.length + 2 := by
  have h1 : step s (Event.fail t) =
      { s with
        messages := s.messages ++
          [{ id := Nat.repr (t + 1), content := errorText, role := Role.assistant,
             timestamp := t, error := true }]
        isLoading := false
        pendingCall := none } := by
    simp [step, h, handleSendCatch]
  refine ⟨h1, ?_⟩
  rw [h1]
  simp [setInput, handleSendStart, hu]

/-- Witness for C4 at the concrete state `loadingState`, failing at clock
2005 and resubmitting `again` at clock 3000. -/
theorem fail_appends_error_witness :
    loadingState.pendingCall = some "hi" ∧ jsTrim "again" ≠ "" ∧
      (step loadingState (Event.fail 2005) =
        { loadingState with
          messages := loadingState.messages ++
            [{ id := Nat.repr (2005 + 1), content := errorText, role := Role.assistant,
               timestamp := 2005, error := true }]
          isLoading := false
          pendingCall := none } ∧
      (handleSendStart (setInput (step loadingState (Event.fail 2005)) "again") 3000).messages.length
        = loadingState.messages.length + 2) :=
  ⟨by decide, by decide, fail_appends_error loadingState "hi" 2005 "again" 3000 (by decide) (by decide)⟩

/-- C9 counterexample: the claim says text edits remain possible while a
remote call is outstanding, but the Textarea (and the sample-question
buttons) carry `disabled={isLoading}`: at the reachable state
`loadingState` (a call is outstanding) an edit event changes nothing, so
`pendingInput` does not become the typed text. -/
theorem edit_while_loading_cex :
    loadingState.isLoading = true ∧
      (step loadingState (Event.edit "new text")).input ≠ "new text" := by
  decide

/-- C9 amended: `setInput` replaces `pendingInput` and touches neither
`messages` nor the loading flag whenever it is invoked; but while a remote
call is outstanding both entry points that invoke it, the Textarea and the
sample-question buttons, are disabled, so neither an edit nor a
sample-question pick changes anything while `isLoading` is true. -/
theorem setInput_always_replaces (s : ChatState) (text : String) :
    (setInput s text).input = text ∧
    (setInput s text).messages = s.messages ∧
    (setInput s text).isLoading = s.isLoading ∧
    step { s with isLoading := true } (Event.edit text) = { s with isLoading := true } ∧
    step { s with isLoading := true } (Event.sample text) = { s with isLoading := true } := by
  refine ⟨rfl, rfl, rfl, ?_, ?_⟩ <;> simp [step]

/-- A step by a non-`fail` event never appends a message with the error
flag set. -/
theorem step_no_new_error (s : ChatState) (e : Event) (he : e.isFail = false)
    (hs : s.messages.all (fun m => !m.error) = true) :
    (step s e).messages.all (fun m => !m.error) = true := by
  cases e with
  | edit text =>
      by_cases h : s.isLoading = true <;> simp [step, setInput, h, hs]
  | sample q =>
      by_cases h : s.isLoading = true <;>
        simp [step, handleSampleQuestion, setInput, h, hs]
  | send t =>
      by_cases h : jsTrim s.input = "" ∨ s.isLoading = true <;>
        simp [step, handleSendStart, h, hs]
  | resolve t =>
      cases hp : s.pendingCall with
      | none => simp [step, hp, hs]
      | some text => simp [step, hp, handleSendResolve, hs]
  | fail t => simp [Event.isFail] at he

/-- Folding a `fail`-free event list over a state whose messages all have
`error = false` keeps every message's error flag false. -/
theorem foldl_no_error (evs : List Event) :
    ∀ s : ChatState, (∀ e ∈ evs, e.isFail = false) →
      s.messages.all (fun m => !m.error) = true →
      ((evs.foldl step s).messages.all (fun m => !m.error)) = true := by
  induction evs with
  | nil => intro s _ hs; exact hs
  | cons e es ih =>
      intro s hf hs
      exact ih (step s e) (fun x hx => hf x (List.mem_cons_of_mem e hx))
        (step_no_new_error s e (hf e (List.mem_cons_self e es)) hs)

/-- C10: in the current implementation the failure branch is unreachable:
the simulated call (awaiting a `setTimeout`-backed promise) always
resolves, so an accepted `handleSend` is exactly the start phase followed
by the resolve phase, appending the user message and then one successful
assistant reply whose content is the fixed template with the submitted
text embedded verbatim; and along any `fail`-free event sequence no
message ever has the error flag set. -/
theorem demo_call_always_succeeds (s : ChatState) (t u t0 : Nat) (evs : List Event)
    (hIdle : s.isLoading = false) (hne : jsTrim s.input ≠ "")
    (hnf : ∀ e ∈ evs, e.isFail = false) :
    (handleSendResolve (handleSendStart s t) s.input u).messages =
      s.messages ++
        [{ id := Nat.repr t, content := s.input, role := Role.user, timestamp := t,
           error := false },
         { id := Nat.repr (u + 1), content := demoResponse s.input, role := Role.assistant,
           timestamp := u, error := false }] ∧
    demoResponse s.input = demoPre ++ s.input ++ demoPost ∧
    (run t0 evs).messages.all (fun m => !m.error) = true := by
  have hcond : ¬ (jsTrim s.input = "" ∨ s.isLoading = true) := by
    simp [hne, hIdle]
  refine ⟨?_, rfl, ?_⟩
  · simp [handleSendResolve, handleSendStart, hcond]
  · exact foldl_no_error evs (initialState t0) hnf (by simp [initialState])

theorem chVal_digitChar : ∀ d, d < 10 → chVal (Nat.digitChar d) = d := by decide

theorem digitsVal_append_one (l : List Char) (c : Char) :
    digitsVal (l ++ [c]) = 10 * digitsVal l + chVal c := by
  simp [digitsVal, List.foldl_append]

/-- `Nat.toDigitsCore` only prepends to its accumulator. -/
theorem toDigitsCore_append (b : Nat) :
    ∀ (fuel n : Nat) (ds : List Char),
      Nat.toDigitsCore b fuel n ds = Nat.toDigitsCore b fuel n [] ++ ds := by
  intro fuel
  induction fuel with
  | zero => intro n ds; simp [Nat.toDigitsCore]
  | succ f ih =>
      intro n ds
      simp only [Nat.toDigitsCore]
      by_cases h : n / b = 0
      · simp [h]
      · rw [if_neg h, if_neg h, ih (n / b) (Nat.digitChar (n % b) :: ds),
          ih (n / b) [Nat.digitChar (n % b)], List.append_assoc, List.singleton_append]

/-- Reading the decimal digits produced by `Nat.toDigitsCore` gives back
the number, so long as the fuel exceeds it. -/
theorem digitsVal_toDigitsCore :
    ∀ (fuel n : Nat), n < fuel → digitsVal (Nat.toDigitsCore 10 fuel n []) = n := by
  intro fuel
  induction fuel with
  | zero => intro n h; exact absurd h (Nat.not_lt_zero n)
  | succ f ih =>
      intro n h
      simp only [Nat.toDigitsCore]
      by_cases h0 : n / 10 = 0
      · rw [if_pos h0]
        have hn : n < 10 := by omega
        have hmod : n % 10 = n := Nat.mod_eq_of_lt hn
        rw [hmod]
        simp [digitsVal, chVal_digitChar n hn]
      · rw [if_neg h0, toDigitsCore_append 10 f (n / 10) [Nat.digitChar (n % 10)]]
        have hpos : 0 < n := by
          rcases Nat.eq_zero_or_pos n with h1 | h1
          · exact absurd (by simp [h1]) h0
          · exact h1
        have hlt : n / 10 < f := by
          have := Nat.div_lt_self hpos (by norm_num : 1 < 10)
          omega
        rw [digitsVal_append_one, ih (n / 10) hlt,
          chVal_digitChar (n % 10) (Nat.mod_lt n (by norm_num))]
        exact Nat.div_add_mod n 10

/-- Decimal printing of naturals is injective: distinct clocks mint
distinct id strings. -/
theorem repr_injective (m n : Nat) (h : Nat.repr m = Nat.repr n) : m = n := by
  have hd : Nat.toDigits 10 m = Nat.toDigits 10 n := by
    have := congrArg String.data h
    simpa [Nat.repr, List.asString] using this
  have hm := digitsVal_toDigitsCore (m + 1) m (Nat.lt_succ_self m)
  have hn := digitsVal_toDigitsCore (n + 1) n (Nat.lt_succ_self n)
  simp only [Nat.toDigits] at hd
  rw [← hm, ← hn, hd]

/-- A clock of at least 2 never mints the seed id `'1'`. -/
theorem repr_ne_one (k : Nat) (h : 2 ≤ k) : Nat.repr k ≠ "1" := by
  intro he
  have h1 : Nat.repr 1 = "1" := by decide
  have : k = 1 := repr_injective k 1 (by rw [he, h1])
  omega

theorem idsBounded_mono (l : List Message) (lo lo' : Nat) (h : lo ≤ lo')
    (hb : IdsBounded l lo) : IdsBounded l lo' := by
  intro m hm
  rcases hb m hm with h1 | ⟨n, h2, h3, h4⟩
  · exact Or.inl h1
  · exact Or.inr ⟨n, h2, lt_of_lt_of_le h3 h, h4⟩

/-- Appending a message minted from a fresh clock `k` (at least the bound)
keeps the ids bounded (by `k + 1`) and pairwise distinct. -/
theorem append_keeps (l : List Message) (lo k : Nat) (m : Message)
    (h2 : 2 ≤ lo) (hk : lo ≤ k) (hid : m.id = Nat.repr k)
    (hb : IdsBounded l lo) (hd : DistinctIds l) :
    IdsBounded (l ++ [m]) (k + 1) ∧ DistinctIds (l ++ [m]) := by
  constructor
  · intro m' hm'
    rcases List.mem_append.mp hm' with h | h
    · exact idsBounded_mono l lo (k + 1) (by omega) hb m' h
    · rcases List.mem_singleton.mp h with rfl
      exact Or.inr ⟨k, by omega, by omega, hid⟩
  · refine List.pairwise_append.mpr ⟨hd, List.pairwise_singleton _ _, ?_⟩
    intro a ha b hb'
    rcases List.mem_singleton.mp hb' with rfl
    rw [hid]
    rcases hb a ha with h1 | ⟨n, hn2, hnlt, hne⟩
    · rw [h1]
      exact (repr_ne_one k (by omega)).symm
    · rw [hne]
      intro hc
      have := repr_injective n k hc
      omega

/-- Under the clock discipline, folding events preserves bounded and
pairwise-distinct ids. -/
theorem foldl_distinct (evs : List Event) :
    ∀ (s : ChatState) (lo : Nat), 2 ≤ lo → timesOK lo evs = true →
      IdsBounded s.messages lo → DistinctIds s.messages →
      DistinctIds ((evs.foldl step s).messages) := by
  induction evs with
  | nil => intro s lo _ _ _ hd; exact hd
  | cons e es ih =>
      intro s lo h2 ht hb hd
      simp only [List.foldl_cons]
      cases e with
      | edit text =>
          simp only [timesOK] at ht
          have hm : (step s (Event.edit text)).messages = s.messages := by
            by_cases h : s.isLoading = true <;> simp [step, setInput, h]
          refine ih _ lo h2 ht ?_ ?_
          · rw [hm]; exact hb
          · rw [hm]; exact hd
      | sample q =>
          simp only [timesOK] at ht
          have hm : (step s (Event.sample q)).messages = s.messages := by
            by_cases h : s.isLoading = true <;>
              simp [step, handleSampleQuestion, setInput, h]
          refine ih _ lo h2 ht ?_ ?_
          · rw [hm]; exact hb
          · rw [hm]; exact hd
      | send t =>
          simp only [timesOK, Bool.and_eq_true, decide_eq_true_eq] at ht
          obtain ⟨hlt, hts⟩ := ht
          by_cases hg : jsTrim s.input = "" ∨ s.isLoading = true
          · have hm : step s (Event.send t) = s := by
              simp [step, handleSendStart, hg]
            rw [hm]
            exact ih s (t + 2) (by omega) hts
              (idsBounded_mono _ lo _ (by omega) hb) hd
          · have hm : (step s (Event.send t)).messages =
                s.messages ++
                  [{ id := Nat.repr t, content := s.input, role := Role.user,
                     timestamp := t, error := false }] := by
              simp [step, handleSendStart, hg]
            have hk := append_keeps s.messages lo t
              { id := Nat.repr t, content := s.input, role := Role.user,
                timestamp := t, error := false }
              h2 hlt rfl hb hd
            refine ih _ (t + 2) (by omega) hts ?_ ?_
            · rw [hm]
              exact idsBounded_mono _ (t + 1) (t + 2) (by omega) hk.1
            · rw [hm]
              exact hk.2
      | resolve t =>
          simp only [timesOK, Bool.and_eq_true, decide_eq_true_eq] at ht
          obtain ⟨hlt, hts⟩ := ht
          cases hp : s.pendingCall with
          | none =>
              have hm : step s (Event.resolve t) = s := by simp [step, hp]
              rw [hm]
              exact ih s (t + 2) (by omega) hts
                (idsBounded_mono _ lo _ (by omega) hb) hd
          | some text =>
              have hm : (step s (Event.resolve t)).messages =
                  s.messages ++
                    [{ id := Nat.repr (t + 1), content := demoResponse text,
                       role := Role.assistant, timestamp := t, error := false }] := by
                simp [step, hp, handleSendResolve]
              have hk := append_keeps s.messages lo (t + 1)
                { id := Nat.repr (t + 1), content := demoResponse text,
                  role := Role.assistant, timestamp := t, error := false }
                h2 (by omega) rfl hb hd
              refine ih _ (t + 2) (by omega) hts ?_ ?_
              · rw [hm]
                exact hk.1
              · rw [hm]
                exact hk.2
      | fail t =>
          simp only [timesOK, Bool.and_eq_true, decide_eq_true_eq] at ht
          obtain ⟨hlt, hts⟩ := ht
          cases hp : s.pendingCall with
          | none =>
              have hm : step s (Event.fail t) = s := by simp [step, hp]
              rw [hm]
              exact ih s (t + 2) (by omega) hts
                (idsBounded_mono _ lo _ (by omega) hb) hd
          | some text =>
              have hm : (step s (Event.fail t)).messages =
                  s.messages ++
                    [{ id := Nat.repr (t + 1), content := errorText,
                       role := Role.assistant, timestamp := t, error := true }] := by
                simp [step, hp, handleSendCatch]
              have hk := append_keeps s.messages lo (t + 1)
                { id := Nat.repr (t + 1), content := errorText,
                  role := Role.assistant, timestamp := t, error := true }
                h2 (by omega) rfl hb hd
              refine ih _ (t + 2) (by omega) hts ?_ ?_
              · rw [hm]
                exact hk.1
              · rw [hm]
                exact hk.2

/-- C8 counterexample: ids are minted from the millisecond clock
(`Date.now().toString()` on submit, `(Date.now() + 1).toString()` on
resolution), so they can collide.  Submitting `hi` at clock 5, resolving
at clock 2005 (respecting the 2000 ms simulated delay, minting assistant
id `2006`), then submitting `yo` one millisecond later at clock 2006 mints
user id `2006` again: the reachable message list has two equal ids. -/
theorem ids_collide_cex :
    ¬ ((run 0 [Event.edit "hi", Event.send 5, Event.resolve 2005, Event.edit "yo",
        Event.send 2006]).messages.Pairwise fun a b => a.id ≠ b.id) := by
  decide

/-- C8 amended: message ids are pairwise distinct in every run whose timed
events respect the clock discipline `timesOK 2`: each send/resolve/fail
clock is at least 2 (so the seed id `'1'` is never minted) and at least 2
beyond the previous timed event's clock (so the `clock + 1` id minted by a
resolution is never reused by a later submission). -/
theorem ids_unique_spaced (t0 : Nat) (evs : List Event)
    (h : timesOK 2 evs = true) :
    (run t0 evs).messages.Pairwise (fun a b => a.id ≠ b.id) := by
  refine foldl_distinct evs (initialState t0) 2 (le_refl 2) h ?_ ?_
  · intro m hm
    simp only [initialState, List.mem_singleton] at hm
    subst hm
    exact Or.inl rfl
  · simp [DistinctIds, initialState]

/-- Witness for the amended C8 at a concrete well-spaced run. -/
theorem ids_unique_spaced_witness :
    timesOK 2 [Event.edit "hi", Event.send 5, Event.resolve 2005, Event.edit "yo",
        Event.send 2008] = true ∧
      (run 0 [Event.edit "hi", Event.send 5, Event.resolve 2005, Event.edit "yo",
        Event.send 2008]).messages.Pairwise (fun a b => a.id ≠ b.id) :=
  ⟨by decide,
    ids_unique_spaced 0 [Event.edit "hi", Event.send 5, Event.resolve 2005, Event.edit "yo",
      Event.send 2008] (by decide)⟩

/-- Witness for C10 at the concrete state `typedState`, clocks 5 and 2005,
and a concrete `fail`-free event sequence. -/
theorem demo_call_always_succeeds_witness :
    typedState.isLoading = false ∧ jsTrim typedState.input ≠ "" ∧
      (∀ e ∈ [Event.edit "hi", Event.send 5, Event.resolve 2005], e.isFail = false) ∧
      ((handleSendResolve (handleSendStart typedState 5) typedState.input 2005).messages =
        typedState.messages ++
          [{ id := Nat.repr 5, content := typedState.input, role := Role.user, timestamp := 5,
             error := false },
           { id := Nat.repr (2005 + 1), content := demoResponse typedState.input,
             role := Role.assistant, timestamp := 2005, error := false }] ∧
      demoResponse typedState.input = demoPre ++ typedState.input ++ demoPost ∧
      (run 0 [Event.edit "hi", Event.send 5, Event.resolve 2005]).messages.all
        (fun m => !m.error) = true) :=
  ⟨by decide, by decide, by decide,
    demo_call_always_succeeds typedState 5 2005 0 [Event.edit "hi", Event.send 5, Event.resolve 2005]
      (by decide) (by decide) (by decide)⟩
